import Mathlib

/-!
# Verification of the Armada inventory app core logic

Shallow embedding of the client-side state-synchronization and
data-consistency logic of `src/index.tsx`: the category/subcategory/product
reconciliation engine (`handleSaveItem`, `handleDeleteCategory`,
`handleDeleteSubcategory`, `handleSellItemSize`), the CSV export helpers
(`formatCsvValue`, `buildCsvContent`), and the browser-history navigation
state machine (the `popstate` handler together with the history-sync effect).

Firebase Realtime Database multi-path batch writes are modelled as an
insertion-ordered key/value list (`Updates`) keyed by structured paths
(`RtdbPath`, each constructor standing for one of the literal path template
strings used by the source). JavaScript string-keyed object assignment
semantics (assigning an existing key overwrites its value in place) are
mirrored by `Updates.set`.
-/

namespace Armada

/-- The fixed size enum; source: `const SIZES = ["XS","S","M","L","XL","XXL","3XL"]`. -/
inductive Size where
  | xs | s | m | l | xl | xxl | x3l
  deriving DecidableEq, Repr

/-- Order of the `SIZES` array in the source. -/
def SIZES : List Size := [.xs, .s, .m, .l, .xl, .xxl, .x3l]

/-- The display string of each size, as in the source array literal. -/
def sizeName : Size → String
  | .xs => "XS"
  | .s => "S"
  | .m => "M"
  | .l => "L"
  | .xl => "XL"
  | .xxl => "XXL"
  | .x3l => "3XL"

instance : Fintype Size :=
  ⟨⟨[Size.xs, Size.s, Size.m, Size.l, Size.xl, Size.xxl, Size.x3l], by decide⟩,
    fun x => by cases x <;> decide⟩

/-- Source interface `CategoryDefinition`. -/
structure CategoryDefinition where
  id : String
  name : String
  subcategories : List String
  deriving DecidableEq, Repr

/-- Source interface `InventoryItem`.  The `sizes` record is modelled as a
total function (every read in the source goes through `sizes[size] || 0`, so
an absent key behaves as quantity `0`); quantities are integers (`parseInt`
in the form).  `price` is only ever copied by the operations modelled here,
so its numeric representation is irrelevant; an integer stands in for the
JavaScript number. -/
structure InventoryItem where
  id : String
  name : String
  sku : String
  category : String
  subcategory : String
  sizes : Size → Int
  price : Int
  description : Option String
  imageUrl : Option String

/-- The product object written by `handleSaveItem` (`finalItemData`,
source lines 740-749): like `InventoryItem` minus `id`, and with `imageUrl`
normalized to a plain string by `itemToSave.imageUrl?.trim() || ''`. -/
structure ProductData where
  name : String
  sku : String
  category : String
  subcategory : String
  sizes : Size → Int
  price : Int
  description : Option String
  imageUrl : String

/-- Structured RTDB paths.  Each constructor corresponds to one literal
path template of the source:
`category id` is the string path `/categories/id`,
`categorySubcats id` is `/categories/id/subcategories`,
`product id` is `/products/id`,
`productCategory id` is `/products/id/category`,
`productSubcategory id` is `/products/id/subcategory`, and
`productSizeQty id s` is `/products/id/sizes/` followed by the size name. -/
inductive RtdbPath where
  | category (id : String)
  | categorySubcats (id : String)
  | product (id : String)
  | productCategory (id : String)
  | productSubcategory (id : String)
  | productSizeQty (id : String) (sz : Size)
  deriving DecidableEq, Repr

/-- Values written to RTDB paths by the operations modelled here. -/
inductive RtdbValue where
  | cat (name : String) (subcategories : List String)
  | subcats (l : List String)
  | str (s : String)
  | int (n : Int)
  | prod (p : ProductData)
  | null

/-- A batch-write object (`const updates = {}` in the source): an
insertion-ordered association list of path/value pairs. -/
abbrev Updates := List (RtdbPath × RtdbValue)

/-- JavaScript object assignment `updates[path] = value`: overwrite in place
if the key is present, append otherwise. -/
def Updates.set : Updates → RtdbPath → RtdbValue → Updates
  | [], k, v => [(k, v)]
  | (k₁, v₁) :: rest, k, v =>
    if k₁ = k then (k₁, v) :: rest else (k₁, v₁) :: Updates.set rest k v

/-- Value stored in a batch at a given path, if any. -/
def Updates.get? : Updates → RtdbPath → Option RtdbValue
  | [], _ => none
  | (k₁, v₁) :: rest, k => if k₁ = k then some v₁ else Updates.get? rest k

/-- Insertion sort on strings: the order computed by JavaScript
`Array.prototype.sort()` with the default (code-unit) comparator, for the
ASCII category names this app operates on. -/
def insertSorted (x : String) : List String → List String
  | [] => [x]
  | y :: ys => if x ≤ y then x :: y :: ys else y :: insertSorted x ys

/-- Sorting as performed by `.sort()` in the source. -/
def sortStrings : List String → List String
  | [] => []
  | x :: xs => insertSorted x (sortStrings xs)

/-- Deduplication keeping the first occurrence of each element, as performed
by `new Set(list)` iteration order. -/
def dedupFirstAux (seen : List String) : List String → List String
  | [] => []
  | x :: xs =>
    if x ∈ seen then dedupFirstAux seen xs
    else x :: dedupFirstAux (x :: seen) xs

/-- `[...new Set(l)]` in the source. -/
def dedupFirst : List String → List String := dedupFirstAux []

/-- `[...new Set(l)].sort()`: the deduplicated, sorted subcategory list the
source writes on every subcategory-list mutation. -/
def setSort (l : List String) : List String := sortStrings (dedupFirst l)

/-- `handleSaveItem` (source lines 693-784), restricted to its pure
batch-construction logic.  `newUncatKey` and `newItemKey` model the
client-generated `push(...)` keys (generated before the write so they can be
referenced inside the same batch).  Returns the batch handed to
`update(dbRef(rtdb), updates)`. -/
def handleSaveItem (categories : List CategoryDefinition) (itemToSave : InventoryItem)
    (newUncatKey newItemKey : String) : Updates :=
  let categoryDef := categories.find? (fun c => c.name == itemToSave.category)
  let uncategorizedCatDef := categories.find? (fun c => c.name == "Uncategorized")
  let step :=
    match categoryDef with
    | none =>
      -- stated category not found: redirect to ("Uncategorized", "Default")
      let u : Updates :=
        match uncategorizedCatDef with
        | none =>
          Updates.set [] (.category newUncatKey) (.cat "Uncategorized" ["Default"])
        | some u0 =>
          if u0.subcategories.contains "Default" then []
          else Updates.set [] (.categorySubcats u0.id)
            (.subcats (setSort (u0.subcategories ++ ["Default"])))
      ("Uncategorized", "Default", u)
    | some cd =>
      if cd.subcategories.contains itemToSave.subcategory then
        (itemToSave.category, itemToSave.subcategory, ([] : Updates))
      else
        -- subcategory not found within the category: redirect to "Default"
        let u : Updates :=
          if cd.subcategories.contains "Default" then []
          else Updates.set [] (.categorySubcats cd.id)
            (.subcats (setSort (cd.subcategories ++ ["Default"])))
        (itemToSave.category, "Default", u)
  let finalItemData : ProductData :=
    { name := itemToSave.name
      sku := itemToSave.sku
      category := step.1
      subcategory := step.2.1
      sizes := itemToSave.sizes
      price := itemToSave.price
      description := itemToSave.description
      imageUrl := (itemToSave.imageUrl.getD "").trim }
  let pid := if itemToSave.id = "" then newItemKey else itemToSave.id
  Updates.set step.2.2 (.product pid) (.prod finalItemData)

/-- The two writes scheduled per reassigned product inside
`handleDeleteCategory` (source lines 925-928). -/
def reassignStep (u : Updates) (i : InventoryItem) : Updates :=
  Updates.set (Updates.set u (.productCategory i.id) (.str "Uncategorized"))
    (.productSubcategory i.id) (.str "Default")

/-- The write scheduled per reassigned product inside
`handleDeleteSubcategory` (source lines 1002-1004). -/
def subReassignStep (u : Updates) (i : InventoryItem) : Updates :=
  Updates.set u (.productSubcategory i.id) (.str "Default")

/-- `handleDeleteCategory` (source lines 906-943).  `none` models an early
return before any write is issued. -/
def handleDeleteCategory (categories : List CategoryDefinition) (items : List InventoryItem)
    (categoryId categoryName : String) (newUncatKey : String) : Option Updates :=
  if categoryName = "Uncategorized" ∨ categoryId = "" then none
  else some (
    let itemsToReassign := items.filter (fun i => i.category == categoryName)
    let u0 : Updates :=
      match categories.find? (fun c => c.name == "Uncategorized") with
      | none => Updates.set [] (.category newUncatKey) (.cat "Uncategorized" ["Default"])
      | some uc =>
        if uc.subcategories.contains "Default" then []
        else Updates.set [] (.categorySubcats uc.id)
          (.subcats (setSort (uc.subcategories ++ ["Default"])))
    let u1 := itemsToReassign.foldl reassignStep u0
    Updates.set u1 (.category categoryId) .null)

/-- `handleDeleteSubcategory` (source lines 971-1027).  `none` models an
early return (protected-case rejection or missing parent) before any write. -/
def handleDeleteSubcategory (categories : List CategoryDefinition)
    (items : List InventoryItem)
    (categoryId categoryName subcategoryName : String) : Option Updates :=
  if (categoryName = "Uncategorized" ∧ subcategoryName = "Default") ∨ categoryId = "" then
    none
  else
    match categories.find? (fun c => c.id == categoryId) with
    | none => none
    | some parentCategory =>
      if subcategoryName = "Default" ∧ parentCategory.subcategories.length = 1 ∧
          categoryName ≠ "Uncategorized" then none
      else some (
        let updated0 := parentCategory.subcategories.filter (fun sub => sub != subcategoryName)
        let itemsToReassign := items.filter
          (fun i => i.category == categoryName && i.subcategory == subcategoryName)
        let updated1 :=
          if itemsToReassign.length > 0 then
            if subcategoryName ≠ "Default" ∧ ¬ updated0.contains "Default" then
              sortStrings (updated0 ++ ["Default"])
            else if subcategoryName = "Default" ∧ updated0 = [] ∧
                categoryName ≠ "Uncategorized" then
              updated0 ++ ["Default"]
            else updated0
          else updated0
        let updated2 :=
          if categoryName ≠ "Uncategorized" ∧ updated1 = [] then updated1 ++ ["Default"]
          else updated1
        let u1 := itemsToReassign.foldl subReassignStep []
        let u2 := Updates.set u1 (.categorySubcats categoryId)
          (if updated2.length > 0 then .subcats updated2 else .null)
        if categoryName = "Uncategorized" ∧ updated2 = [] ∧ subcategoryName = "Default" then
          Updates.set u2 (.categorySubcats categoryId) (.subcats ["Default"])
        else u2)

/-- `handleSellItemSize` (source lines 806-829): the single-path write issued
by `set(itemSizeRef, newQuantity)`, or `none` when the operation is a silent
no-op. -/
def handleSellItemSize (items : List InventoryItem) (itemId : String) (sizeToSell : Size) :
    Option (RtdbPath × RtdbValue) :=
  if itemId = "" then none
  else
    match items.find? (fun i => i.id == itemId) with
    | none => none
    | some item =>
      let currentQuantity := item.sizes sizeToSell
      if currentQuantity > 0 then
        some (.productSizeQty itemId sizeToSell, .int (currentQuantity - 1))
      else none

/-! ## Store snapshots and batch application

The two subscribed collections, as rebuilt wholesale from a snapshot
(`id -> fields` mapping flattened to an ordered list, source lines 619-681). -/

/-- The remote store as mirrored by the two live snapshots. -/
structure Store where
  categories : List CategoryDefinition
  products : List InventoryItem

/-- Replace the entry with the given id, or append a fresh one: the effect of
a `set` at `/categories/{id}` as observed through the next snapshot. -/
def setCategoryEntry (cats : List CategoryDefinition) (id name : String)
    (subs : List String) : List CategoryDefinition :=
  match cats with
  | [] => [⟨id, name, subs⟩]
  | c :: rest =>
    if c.id = id then ⟨id, name, subs⟩ :: rest
    else c :: setCategoryEntry rest id name subs

/-- Replace the product entry with the given id, or append a fresh one. -/
def setProductEntry (prods : List InventoryItem) (id : String) (p : ProductData) :
    List InventoryItem :=
  match prods with
  | [] => [⟨id, p.name, p.sku, p.category, p.subcategory, p.sizes, p.price,
      p.description, some p.imageUrl⟩]
  | i :: rest =>
    if i.id = id then
      ⟨id, p.name, p.sku, p.category, p.subcategory, p.sizes, p.price,
        p.description, some p.imageUrl⟩ :: rest
    else i :: setProductEntry rest id p

/-- The effect of one path write on the mirrored store, as observed through
the next snapshot.  A `null` value deletes the subtree at the path.  (A
`null` at a `subcategories` path would leave the snapshot without that field;
it is rendered here as the empty list.  Writes with a value shape that cannot
occur at the given path leave the store unchanged; the batches built by the
operations above never contain such pairs.) -/
def applyWrite (st : Store) : RtdbPath → RtdbValue → Store
  | .category id, .cat n subs => { st with categories := setCategoryEntry st.categories id n subs }
  | .category id, .null => { st with categories := st.categories.filter (fun c => c.id != id) }
  | .categorySubcats id, .subcats l =>
    { st with categories := (st.categories.map
        (fun c => if c.id = id then { c with subcategories := l } else c)) }
  | .categorySubcats id, .null =>
    { st with categories := (st.categories.map
        (fun c => if c.id = id then { c with subcategories := [] } else c)) }
  | .product id, .prod p => { st with products := setProductEntry st.products id p }
  | .product id, .null => { st with products := st.products.filter (fun i => i.id != id) }
  | .productCategory id, .str sc =>
    { st with products := (st.products.map
        (fun i => if i.id = id then { i with category := sc } else i)) }
  | .productSubcategory id, .str ss =>
    { st with products := (st.products.map
        (fun i => if i.id = id then { i with subcategory := ss } else i)) }
  | .productSizeQty id sz, .int q =>
    { st with products := (st.products.map
        (fun i => if i.id = id then
          { i with sizes := fun sz₁ => if sz₁ = sz then q else i.sizes sz₁ } else i)) }
  | _, _ => st

/-- Applying a whole batch (`update(dbRef(rtdb), updates)`) path by path. -/
def applyUpdates (st : Store) (u : Updates) : Store :=
  u.foldl (fun st kv => applyWrite st kv.1 kv.2) st

/-- Applying an optional single write (`none` = the operation issued no
write, the store is untouched). -/
def applyOptWrite (st : Store) : Option (RtdbPath × RtdbValue) → Store
  | none => st
  | some (k, v) => applyWrite st k v

/-! ## CSV export (source lines 97-130 and 158-170) -/

/-- A CSV cell as passed to `formatCsvValue`: `type CsvValue = string | number`. -/
inductive CsvValue where
  | str (s : String)
  | int (n : Int)

/-- `String(value ?? '')`. -/
def CsvValue.toText : CsvValue → String
  | .str s => s
  | .int n => toString n

/-- The test `/[",\r\n]/.test(text)`. -/
def needsQuoting (t : String) : Bool :=
  t.data.any (fun c => c == '"' || c == ',' || c == '\r' || c == '\n')

/-- `text.replace(/"/g, '""')`: double every double-quote character. -/
def escapeQuotes (t : String) : String :=
  ⟨t.data.foldr (fun c acc => if c = '"' then '"' :: '"' :: acc else c :: acc) []⟩

/-- `formatCsvValue` (source lines 97-103). -/
def formatCsvValue (value : CsvValue) : String :=
  let text := value.toText
  if needsQuoting text then "\"" ++ escapeQuotes text ++ "\"" else text

/-- `buildCsvContent` (source lines 105-107). -/
def buildCsvContent (rows : List (List CsvValue)) : String :=
  String.intercalate "\r\n" (rows.map (fun row => String.intercalate "," (row.map formatCsvValue)))

/-- The file content of `downloadCsvFile` (source line 120): byte-order-mark
prefix followed by the CSV body. -/
def csvFileContent (rows : List (List CsvValue)) : String :=
  "\uFEFF" ++ buildCsvContent rows

/-- The rows assembled by `handleExportSubcategory` (source lines 158-170)
for the products of the selected subcategory. -/
def exportRows (items : List InventoryItem) : List (List CsvValue) :=
  ([.str "Name", .str "Image URL"] ++ SIZES.map (fun sz => CsvValue.str (sizeName sz))) ::
    items.map (fun item =>
      [CsvValue.str item.name, CsvValue.str (item.imageUrl.getD "")] ++
        SIZES.map (fun sz => CsvValue.int (item.sizes sz)))

/-- The full exported file content for a subcategory's product list. -/
def handleExportSubcategory (items : List InventoryItem) : String :=
  csvFileContent (exportRows items)

/-! ## Navigation history state machine (source lines 525-616, 1039-1050) -/

/-- `viewMode`. -/
inductive ViewMode where
  | admin | stock
  deriving DecidableEq, Repr

/-- The view-selection tuple `(viewMode, selectedCategoryForView,
selectedSubcategoryForView)` driving the history-sync effect. -/
structure ViewState where
  viewMode : ViewMode
  selectedCategory : Option String
  selectedSubcategory : Option String
  deriving DecidableEq, Repr

/-- One platform history entry: either a state object tagged with
`__app: 'inventory-app'` holding the view tuple and `historyIndex`, or a
foreign/absent state (`event.state` null or untagged). -/
inductive HistoryEntry where
  | tagged (vs : ViewState) (historyIndex : Nat)
  | untagged
  deriving DecidableEq, Repr

/-- The platform history stack with the current-entry position. -/
structure BrowserHistory where
  stack : List HistoryEntry
  pos : Nat
  deriving DecidableEq, Repr

/-- `window.history.pushState`: discard the forward entries, append, advance. -/
def pushEntry (h : BrowserHistory) (e : HistoryEntry) : BrowserHistory :=
  { stack := h.stack.take (h.pos + 1) ++ [e], pos := h.pos + 1 }

/-- `window.history.replaceState`: overwrite the current entry in place. -/
def replaceEntry (h : BrowserHistory) (e : HistoryEntry) : BrowserHistory :=
  { h with stack := h.stack.set h.pos e }

/-- `window.history.state`: the current entry. -/
def currentEntry (h : BrowserHistory) : Option HistoryEntry :=
  h.stack.get? h.pos

/-- The app-side navigation state: the view tuple plus the refs
`historyIndexRef`, `isHandlingPopStateRef`, `isInitialHistoryRef`,
`hasSeededHistoryRef`, and the platform history. -/
structure AppNav where
  view : ViewState
  historyIndex : Nat
  isHandlingPopState : Bool
  isInitialHistory : Bool
  hasSeededHistory : Bool
  history : BrowserHistory
  deriving DecidableEq, Repr

/-- `buildHistoryState(index)` (source lines 552-558). -/
def buildHistoryState (s : AppNav) (index : Nat) : HistoryEntry :=
  .tagged s.view index

/-- The history-sync effect (source lines 584-616), run after every render
on which the view tuple changed (and once on mount). -/
def syncEffect (s : AppNav) : AppNav :=
  if s.isInitialHistory then
    let hasAppState :=
      match currentEntry s.history with
      | some (.tagged _ _) => true
      | _ => false
    let idx0 :=
      match currentEntry s.history with
      | some (.tagged _ i) => i
      | _ => 0
    let s₁ := { s with historyIndex := idx0,
                       history := replaceEntry s.history (.tagged s.view idx0) }
    let s₂ :=
      if !s₁.hasSeededHistory && (!hasAppState || idx0 == 0) then
        { s₁ with historyIndex := idx0 + 1,
                  history := pushEntry s₁.history (.tagged s₁.view (idx0 + 1)),
                  hasSeededHistory := true }
      else { s₁ with hasSeededHistory := true }
    { s₂ with isInitialHistory := false }
  else if s.isHandlingPopState then
    { s with isHandlingPopState := false,
             history := replaceEntry s.history (.tagged s.view s.historyIndex) }
  else
    { s with historyIndex := s.historyIndex + 1,
             history := pushEntry s.history (.tagged s.view (s.historyIndex + 1)) }

/-- The view adopted by the `popstate` handler from a tagged entry (source
lines 570-577): in `stock` mode the stored selections are restored, in
`admin` mode both selections are set to `null`. -/
def restrictView (vs : ViewState) : ViewState :=
  if vs.viewMode = ViewMode.stock then vs else ⟨ViewMode.admin, none, none⟩

/-- Processing of one `popstate` event (source lines 561-578) followed by the
re-render: an untagged entry is ignored; a tagged entry updates the refs and
the view, and the sync effect re-runs only when the view tuple actually
changed (its dependency array). -/
def applyPopped (s : AppNav) (e : HistoryEntry) : AppNav :=
  match e with
  | .untagged => s
  | .tagged vs i =>
    let s₁ := { s with historyIndex := i, isHandlingPopState := true }
    let newView := restrictView vs
    if newView = s.view then s₁
    else syncEffect { s₁ with view := newView }

/-- A user-driven in-app navigation to view tuple `v`: a state change that
triggers the sync effect exactly when the tuple changed. -/
def navigate (s : AppNav) (v : ViewState) : AppNav :=
  if v = s.view then s else syncEffect { s with view := v }

/-- Native back navigation: the browser moves its pointer one entry back and
fires `popstate` with the entry it landed on. -/
def goBack (s : AppNav) : AppNav :=
  if s.history.pos = 0 then s
  else
    let pos₁ := s.history.pos - 1
    let s₁ := { s with history := { s.history with pos := pos₁ } }
    match s.history.stack.get? pos₁ with
    | none => s₁
    | some e => applyPopped s₁ e

/-- Native forward navigation. -/
def goForward (s : AppNav) : AppNav :=
  if s.history.pos + 1 < s.history.stack.length then
    let pos₁ := s.history.pos + 1
    let s₁ := { s with history := { s.history with pos := pos₁ } }
    match s.history.stack.get? pos₁ with
    | none => s₁
    | some e => applyPopped s₁ e
  else s

/-- The initial view tuple (source lines 525-527): stock mode, nothing
selected. -/
def initialView : ViewState := ⟨.stock, none, none⟩

/-- The app state after the first render of a fresh page load: the initial
view tuple, zeroed refs, a platform history holding one foreign entry, and
one run of the sync effect (its mount branch). -/
def mountApp : AppNav :=
  syncEffect ⟨initialView, 0, false, true, false, ⟨[.untagged], 0⟩⟩

/-! ## Basic lemmas: batches, sorting, snapshot updates -/

theorem Updates.mem_set_self (u : Updates) (k : RtdbPath) (v : RtdbValue) :
    (k, v) ∈ u.set k v := by
  induction u with
  | nil => simp [Updates.set]
  | cons hd tl ih =>
    obtain ⟨k₁, v₁⟩ := hd
    by_cases h : k₁ = k
    · subst h; simp [Updates.set]
    · simp only [Updates.set, if_neg h, List.mem_cons]
      exact Or.inr ih

theorem Updates.mem_set_of {k₂ : RtdbPath} {v₂ : RtdbValue} (u : Updates)
    (hmem : (k₂, v₂) ∈ u) {k : RtdbPath} {v : RtdbValue} (hne : k₂ ≠ k ∨ v₂ = v) :
    (k₂, v₂) ∈ u.set k v := by
  induction u with
  | nil => simp at hmem
  | cons hd tl ih =>
    obtain ⟨k₁, v₁⟩ := hd
    by_cases h : k₁ = k
    · simp only [Updates.set, if_pos h, List.mem_cons]
      rcases List.mem_cons.mp hmem with heq | htl
      · have hk2 : k₂ = k₁ := congrArg Prod.fst heq
        rcases hne with hne | hve
        · exact absurd (hk2.trans h) hne
        · left; rw [hk2, hve]
      · right; exact htl
    · simp only [Updates.set, if_neg h, List.mem_cons]
      rcases List.mem_cons.mp hmem with heq | htl
      · left; exact heq
      · right; exact ih htl

theorem Updates.set_ne_nil : ∀ (u : Updates) (k : RtdbPath) (v : RtdbValue),
    u.set k v ≠ []
  | [], _, _ => List.cons_ne_nil _ _
  | (k₁, v₁) :: rest, k, v => by
    simp only [Updates.set]
    split
    · exact List.cons_ne_nil _ _
    · exact List.cons_ne_nil _ _

theorem Updates.get?_set_self (u : Updates) (k : RtdbPath) (v : RtdbValue) :
    (u.set k v).get? k = some v := by
  induction u with
  | nil => simp [Updates.set, Updates.get?]
  | cons hd tl ih =>
    obtain ⟨k₁, v₁⟩ := hd
    by_cases h : k₁ = k
    · simp [Updates.set, Updates.get?, h]
    · simp [Updates.set, Updates.get?, h, ih]

theorem mem_insertSorted {a x : String} : ∀ {l : List String},
    a ∈ insertSorted x l ↔ a = x ∨ a ∈ l := by
  intro l
  induction l with
  | nil => simp [insertSorted]
  | cons y ys ih =>
    by_cases h : x ≤ y
    · simp only [insertSorted, if_pos h, List.mem_cons]
    · simp only [insertSorted, if_neg h, List.mem_cons, ih]
      tauto

theorem mem_sortStrings {a : String} : ∀ {l : List String},
    a ∈ sortStrings l ↔ a ∈ l := by
  intro l
  induction l with
  | nil => simp [sortStrings]
  | cons x xs ih => simp [sortStrings, mem_insertSorted, ih]

theorem mem_dedupFirstAux {a : String} : ∀ {l seen : List String},
    a ∈ dedupFirstAux seen l ↔ a ∈ l ∧ a ∉ seen := by
  intro l
  induction l with
  | nil => simp [dedupFirstAux]
  | cons x xs ih =>
    intro seen
    by_cases h : x ∈ seen
    · rw [dedupFirstAux, if_pos h, ih]
      by_cases hax : a = x
      · subst hax; simp [h]
      · simp [hax]
    · rw [dedupFirstAux, if_neg h]
      simp only [List.mem_cons, ih]
      by_cases hax : a = x
      · subst hax; simp [h]
      · simp [hax]

theorem mem_setSort {a : String} {l : List String} : a ∈ setSort l ↔ a ∈ l := by
  unfold setSort dedupFirst
  rw [mem_sortStrings, mem_dedupFirstAux]
  simp

theorem mem_setCategoryEntry (cats : List CategoryDefinition) (id name : String)
    (subs : List String) :
    (⟨id, name, subs⟩ : CategoryDefinition) ∈ setCategoryEntry cats id name subs := by
  induction cats with
  | nil => simp [setCategoryEntry]
  | cons c rest ih =>
    by_cases h : c.id = id
    · simp [setCategoryEntry, h]
    · simp only [setCategoryEntry, if_neg h, List.mem_cons]
      exact Or.inr ih

/-- Pairs that are never clobbered by the per-product reassignment writes of
`handleDeleteCategory`: any write the fold performs at their path carries the
very same value. -/
def reassignStable (kv : RtdbPath × RtdbValue) : Prop :=
  (∀ pid, kv.1 = .productCategory pid → kv.2 = .str "Uncategorized") ∧
  (∀ pid, kv.1 = .productSubcategory pid → kv.2 = .str "Default")

theorem mem_foldl_reassign_of_mem {k₂ : RtdbPath} {v₂ : RtdbValue}
    (hst : reassignStable (k₂, v₂)) :
    ∀ (l : List InventoryItem) (u : Updates), (k₂, v₂) ∈ u →
      (k₂, v₂) ∈ l.foldl reassignStep u := by
  intro l
  induction l with
  | nil => exact fun u h => h
  | cons i tl ih =>
    intro u h
    simp only [List.foldl_cons]
    apply ih
    unfold reassignStep
    have h₁ : (k₂, v₂) ∈ Updates.set u (.productCategory i.id) (.str "Uncategorized") := by
      apply Updates.mem_set_of u h
      by_cases hk : k₂ = RtdbPath.productCategory i.id
      · exact Or.inr (hst.1 i.id hk)
      · exact Or.inl hk
    apply Updates.mem_set_of _ h₁
    by_cases hk : k₂ = RtdbPath.productSubcategory i.id
    · exact Or.inr (hst.2 i.id hk)
    · exact Or.inl hk

theorem mem_foldl_reassign_self :
    ∀ (l : List InventoryItem) (u : Updates) (i : InventoryItem), i ∈ l →
      (RtdbPath.productCategory i.id, RtdbValue.str "Uncategorized") ∈
        l.foldl reassignStep u ∧
      (RtdbPath.productSubcategory i.id, RtdbValue.str "Default") ∈
        l.foldl reassignStep u := by
  intro l
  induction l with
  | nil => intro u i h; simp at h
  | cons j tl ih =>
    intro u i h
    simp only [List.foldl_cons]
    rcases List.mem_cons.mp h with rfl | htl
    · constructor
      · apply mem_foldl_reassign_of_mem ⟨fun _ _ => rfl, fun pid hp => by simp at hp⟩
        unfold reassignStep
        apply Updates.mem_set_of _ (Updates.mem_set_self u _ _)
        exact Or.inl (by simp)
      · apply mem_foldl_reassign_of_mem ⟨fun pid hp => by simp at hp, fun _ _ => rfl⟩
        unfold reassignStep
        exact Updates.mem_set_self _ _ _
    · exact ih (reassignStep u j) i htl

/-- Pairs never clobbered by the per-product reassignment writes of
`handleDeleteSubcategory`. -/
def subReassignStable (kv : RtdbPath × RtdbValue) : Prop :=
  ∀ pid, kv.1 = .productSubcategory pid → kv.2 = .str "Default"

theorem mem_foldl_subreassign_of_mem {k₂ : RtdbPath} {v₂ : RtdbValue}
    (hst : subReassignStable (k₂, v₂)) :
    ∀ (l : List InventoryItem) (u : Updates), (k₂, v₂) ∈ u →
      (k₂, v₂) ∈ l.foldl subReassignStep u := by
  intro l
  induction l with
  | nil => exact fun u h => h
  | cons i tl ih =>
    intro u h
    simp only [List.foldl_cons]
    apply ih
    unfold subReassignStep
    apply Updates.mem_set_of u h
    by_cases hk : k₂ = RtdbPath.productSubcategory i.id
    · exact Or.inr (hst i.id hk)
    · exact Or.inl hk

theorem mem_foldl_subreassign_self :
    ∀ (l : List InventoryItem) (u : Updates) (i : InventoryItem), i ∈ l →
      (RtdbPath.productSubcategory i.id, RtdbValue.str "Default") ∈
        l.foldl subReassignStep u := by
  intro l
  induction l with
  | nil => intro u i h; simp at h
  | cons j tl ih =>
    intro u i h
    simp only [List.foldl_cons]
    rcases List.mem_cons.mp h with rfl | htl
    · apply mem_foldl_subreassign_of_mem (fun _ _ => rfl)
      unfold subReassignStep
      exact Updates.mem_set_self _ _ _
    · exact ih (subReassignStep u j) i htl

/-! ## Claim C4: stock decrement -/

/-- Postcondition of the sell operation for claim C4: with quantity `≤ 0` no
write is issued and the store is untouched; with quantity `N > 0` exactly the
single size path of the given product is written with `N - 1` (never
negative), every other product and every other size being left unchanged. -/
def sellPost (items : List InventoryItem) (itemId : String) (sz : Size)
    (item : InventoryItem) : Prop :=
  (item.sizes sz ≤ 0 → handleSellItemSize items itemId sz = none ∧
    ∀ st : Store, applyOptWrite st (handleSellItemSize items itemId sz) = st) ∧
  (0 < item.sizes sz →
    handleSellItemSize items itemId sz =
      some (.productSizeQty itemId sz, .int (item.sizes sz - 1)) ∧
    0 ≤ item.sizes sz - 1 ∧
    (∀ st : Store,
      (applyOptWrite st (handleSellItemSize items itemId sz)).categories = st.categories ∧
      ∀ j ∈ st.products,
        (j.id ≠ itemId →
          j ∈ (applyOptWrite st (handleSellItemSize items itemId sz)).products) ∧
        (j.id = itemId →
          ∃ j₁ ∈ (applyOptWrite st (handleSellItemSize items itemId sz)).products,
            j₁.id = j.id ∧ j₁.name = j.name ∧ j₁.sku = j.sku ∧
            j₁.category = j.category ∧ j₁.subcategory = j.subcategory ∧
            j₁.price = j.price ∧
            j₁.sizes sz = item.sizes sz - 1 ∧
            ∀ sz₁, sz₁ ≠ sz → j₁.sizes sz₁ = j.sizes sz₁)))

/-- C4. Selling a size of a product present in the items list: quantity `0`
(or an absent size key, which reads as `0`) issues no write and leaves stock
unchanged; quantity `N > 0` writes exactly `N - 1` to the single
`/products/id/sizes/size` path, never touching another size or another
product, and never writing a negative quantity. -/
theorem c4_sell_decrement (items : List InventoryItem) (itemId : String) (sz : Size)
    (item : InventoryItem) (hid : itemId ≠ "")
    (hfind : items.find? (fun i => i.id == itemId) = some item) :
    sellPost items itemId sz item := by
  have hr : handleSellItemSize items itemId sz =
      if item.sizes sz > 0 then
        some (.productSizeQty itemId sz, .int (item.sizes sz - 1))
      else none := by
    unfold handleSellItemSize
    rw [if_neg hid, hfind]
  constructor
  · intro hle
    have hnot : ¬ item.sizes sz > 0 := by omega
    rw [hr, if_neg hnot]
    exact ⟨rfl, fun st => rfl⟩
  · intro hpos
    rw [hr, if_pos hpos]
    refine ⟨rfl, by omega, fun st => ?_⟩
    have hprod : (applyOptWrite st (some (RtdbPath.productSizeQty itemId sz,
        RtdbValue.int (item.sizes sz - 1)))).products =
        st.products.map (fun i => if i.id = itemId then
          { i with sizes := fun sz₁ => if sz₁ = sz then item.sizes sz - 1 else i.sizes sz₁ }
        else i) := rfl
    refine ⟨rfl, fun j hj => ⟨fun hne => ?_, fun heq => ?_⟩⟩
    · rw [hprod]
      exact List.mem_map.mpr ⟨j, hj, if_neg hne⟩
    · refine ⟨{ j with sizes := fun sz₁ =>
        if sz₁ = sz then item.sizes sz - 1 else j.sizes sz₁ }, ?_, rfl, rfl, rfl,
        rfl, rfl, rfl, by simp, fun sz₁ hne₁ => if_neg hne₁⟩
      rw [hprod]
      exact List.mem_map.mpr ⟨j, hj, if_pos heq⟩

/-- Witness for C4 at a concrete store state. -/
theorem c4_sell_decrement_witness :
    sellPost [⟨"p1", "Runner", "SH-1", "Shoes", "Default", fun _ => 2, 50, none, none⟩]
      "p1" Size.m ⟨"p1", "Runner", "SH-1", "Shoes", "Default", fun _ => 2, 50, none, none⟩ :=
  c4_sell_decrement _ _ _ _ (by decide) rfl

/-! ## Claim C6: protected subcategory deletions are rejected -/

/-- C6. Deleting the `Default` subcategory of `Uncategorized`, and deleting
`Default` from a non-`Uncategorized` category whose subcategory list is
exactly `["Default"]`, are both rejected before any write: the operation
returns without producing a batch, so local and remote state are unchanged. -/
theorem c6_protected_subcategory_rejections :
    (∀ (categories : List CategoryDefinition) (items : List InventoryItem) (cid : String),
      handleDeleteSubcategory categories items cid "Uncategorized" "Default" = none) ∧
    (∀ (categories : List CategoryDefinition) (items : List InventoryItem)
      (cid cname : String) (parent : CategoryDefinition),
      cname ≠ "Uncategorized" →
      categories.find? (fun c => c.id == cid) = some parent →
      parent.subcategories = ["Default"] →
      handleDeleteSubcategory categories items cid cname "Default" = none) := by
  constructor
  · intro categories items cid
    unfold handleDeleteSubcategory
    rw [if_pos (Or.inl ⟨rfl, rfl⟩)]
  · intro categories items cid cname parent hname hfind hsubs
    unfold handleDeleteSubcategory
    by_cases hcid : cid = ""
    · rw [if_pos (Or.inr hcid)]
    · have hguard : ¬ ((cname = "Uncategorized" ∧ "Default" = "Default") ∨ cid = "") := by
        rintro (⟨h₁, _⟩ | h₂)
        · exact hname h₁
        · exact hcid h₂
      rw [if_neg hguard]
      simp only [hfind]
      have hlen : parent.subcategories.length = 1 := by rw [hsubs]; rfl
      rw [if_pos ⟨by trivial, hlen, hname⟩]

/-- Witness for C6: both rejections at concrete inputs. -/
theorem c6_protected_subcategory_rejections_witness :
    handleDeleteSubcategory [] [] "x" "Uncategorized" "Default" = none ∧
    handleDeleteSubcategory [⟨"c1", "Shoes", ["Default"]⟩] [] "c1" "Shoes" "Default" = none :=
  ⟨c6_protected_subcategory_rejections.1 [] [] "x",
    c6_protected_subcategory_rejections.2 [⟨"c1", "Shoes", ["Default"]⟩] [] "c1" "Shoes"
      ⟨"c1", "Shoes", ["Default"]⟩ (by decide) rfl rfl⟩

/-! ## Claim C2: category deletion -/

/-- Postcondition of category deletion for claim C2: one batch is issued
that reassigns every product of the category to the fallback bucket, deletes
the category path, and creates or patches `Uncategorized` when needed. -/
def deleteCategoryPost (categories : List CategoryDefinition) (items : List InventoryItem)
    (categoryId categoryName newUncatKey : String) : Prop :=
  ∃ B, handleDeleteCategory categories items categoryId categoryName newUncatKey = some B ∧
    (∀ i ∈ items, i.category = categoryName →
      (RtdbPath.productCategory i.id, RtdbValue.str "Uncategorized") ∈ B ∧
      (RtdbPath.productSubcategory i.id, RtdbValue.str "Default") ∈ B) ∧
    (RtdbPath.category categoryId, RtdbValue.null) ∈ B ∧
    (match categories.find? (fun c => c.name == "Uncategorized") with
     | none =>
       (RtdbPath.category newUncatKey, RtdbValue.cat "Uncategorized" ["Default"]) ∈ B
     | some uc =>
       uc.subcategories.contains "Default" = false →
         ∃ L, (RtdbPath.categorySubcats uc.id, RtdbValue.subcats L) ∈ B ∧ "Default" ∈ L)

/-- C2. Deleting a category other than `Uncategorized` issues one batch
that writes `("Uncategorized", "Default")` onto every product of that
category, deletes the category path, and creates or patches the
`Uncategorized` category in the same batch when it is absent or lacks
`Default`; calling the operation with the name `Uncategorized` returns
before any write is issued.  (`newUncatKey` is a freshly generated push id,
hence distinct from the id of the category being deleted.) -/
theorem c2_delete_category (categories : List CategoryDefinition)
    (items : List InventoryItem) (categoryId categoryName newUncatKey : String)
    (hname : categoryName ≠ "Uncategorized") (hcid : categoryId ≠ "")
    (hfresh : newUncatKey ≠ categoryId) :
    deleteCategoryPost categories items categoryId categoryName newUncatKey ∧
    (∀ cid k : String, handleDeleteCategory categories items cid "Uncategorized" k = none) := by
  have hguard : ¬ (categoryName = "Uncategorized" ∨ categoryId = "") := by
    rintro (h | h)
    · exact hname h
    · exact hcid h
  have hitems : ∀ (u : Updates) (i : InventoryItem), i ∈ items → i.category = categoryName →
      ((RtdbPath.productCategory i.id, RtdbValue.str "Uncategorized") ∈
        Updates.set ((items.filter (fun i => i.category == categoryName)).foldl reassignStep u)
          (RtdbPath.category categoryId) RtdbValue.null) ∧
      ((RtdbPath.productSubcategory i.id, RtdbValue.str "Default") ∈
        Updates.set ((items.filter (fun i => i.category == categoryName)).foldl reassignStep u)
          (RtdbPath.category categoryId) RtdbValue.null) := by
    intro u i hi hcat
    have hfil : i ∈ items.filter (fun i => i.category == categoryName) :=
      List.mem_filter.mpr ⟨hi, by simp [hcat]⟩
    have hpair := mem_foldl_reassign_self
      (items.filter (fun i => i.category == categoryName)) u i hfil
    exact ⟨Updates.mem_set_of _ hpair.1 (Or.inl (by simp)),
      Updates.mem_set_of _ hpair.2 (Or.inl (by simp))⟩
  constructor
  · unfold deleteCategoryPost handleDeleteCategory
    rw [if_neg hguard]
    rcases hu : categories.find? (fun c => c.name == "Uncategorized") with _ | uc
    · simp only [hu]
      refine ⟨_, rfl, fun i hi hcat => hitems _ i hi hcat,
        Updates.mem_set_self _ _ _, ?_⟩
      -- the batch schedules the creation of the fallback category
      apply Updates.mem_set_of _ _ (Or.inl (by simp [hfresh]))
      apply mem_foldl_reassign_of_mem
        ⟨fun pid hp => by simp at hp, fun pid hp => by simp at hp⟩
      simp [Updates.set]
    · simp only [hu]
      by_cases hdef : uc.subcategories.contains "Default"
      · simp only [hdef, if_true]
        refine ⟨_, rfl, fun i hi hcat => hitems _ i hi hcat,
          Updates.mem_set_self _ _ _, fun hfalse => absurd hfalse (by simp)⟩
      · rw [Bool.not_eq_true] at hdef
        simp only [hdef, Bool.false_eq_true, if_false]
        refine ⟨_, rfl, fun i hi hcat => hitems _ i hi hcat,
          Updates.mem_set_self _ _ _, fun _ => ?_⟩
        refine ⟨setSort (uc.subcategories ++ ["Default"]), ?_,
          mem_setSort.mpr (List.mem_append_right _ (List.mem_singleton.mpr rfl))⟩
        apply Updates.mem_set_of _ _ (Or.inl (by simp))
        apply mem_foldl_reassign_of_mem
          ⟨fun pid hp => by simp at hp, fun pid hp => by simp at hp⟩
        simp [Updates.set]
  · intro cid k
    unfold handleDeleteCategory
    rw [if_pos (Or.inl rfl)]

/-- Witness for C2 at a concrete state: category `Shoes` with one product in
it, `Uncategorized` absent. -/
theorem c2_delete_category_witness :
    deleteCategoryPost [⟨"c1", "Shoes", ["Default"]⟩]
      [⟨"p1", "Runner", "SH-1", "Shoes", "Default", fun _ => 2, 50, none, none⟩]
      "c1" "Shoes" "k9" ∧
    (∀ cid k : String,
      handleDeleteCategory [⟨"c1", "Shoes", ["Default"]⟩]
        [⟨"p1", "Runner", "SH-1", "Shoes", "Default", fun _ => 2, 50, none, none⟩]
        cid "Uncategorized" k = none) :=
  c2_delete_category _ _ _ _ _ (by decide) (by decide) (by decide)

/-- Membership in a conditional batch that holds in both branches. -/
theorem mem_ite_updates {p : RtdbPath × RtdbValue} {c : Prop} [Decidable c]
    {a b : Updates} (ha : c → p ∈ a) (hb : ¬ c → p ∈ b) :
    p ∈ (if c then a else b) := by
  by_cases h : c
  · rw [if_pos h]; exact ha h
  · rw [if_neg h]; exact hb h

/-! ## Claim C3: subcategory deletion -/

/-- Postcondition of subcategory deletion for claim C3: every product of the
deleted subcategory is rewritten to `Default`, and the subcategory list
written for a non-`Uncategorized` category is never empty — exactly
`["Default"]` when the deleted subcategory was the only one. -/
def deleteSubcategoryPost (categories : List CategoryDefinition)
    (items : List InventoryItem) (categoryId categoryName subcategoryName : String)
    (parent : CategoryDefinition) : Prop :=
  ∃ B, handleDeleteSubcategory categories items categoryId categoryName subcategoryName
      = some B ∧
    (∀ i ∈ items, i.category = categoryName → i.subcategory = subcategoryName →
      (RtdbPath.productSubcategory i.id, RtdbValue.str "Default") ∈ B) ∧
    (categoryName ≠ "Uncategorized" →
      ∃ L, B.get? (.categorySubcats categoryId) = some (.subcats L) ∧ L ≠ [] ∧
        (parent.subcategories = [subcategoryName] → L = ["Default"]))

/-- C3. Deleting subcategory `S` of category `C` (when not rejected as a
protected case) writes subcategory `Default` onto every product in
`(C.name, S)`, and the subcategory list written for a non-`Uncategorized`
category is never empty: when `S` was the sole subcategory, the written list
is exactly `["Default"]`. -/
theorem c3_delete_subcategory (categories : List CategoryDefinition)
    (items : List InventoryItem) (categoryId categoryName subcategoryName : String)
    (parent : CategoryDefinition)
    (hrej1 : ¬ (categoryName = "Uncategorized" ∧ subcategoryName = "Default"))
    (hcid : categoryId ≠ "")
    (hfind : categories.find? (fun c => c.id == categoryId) = some parent)
    (_hpname : parent.name = categoryName)
    (_hsub : subcategoryName ∈ parent.subcategories)
    (hrej2 : ¬ (subcategoryName = "Default" ∧ parent.subcategories.length = 1 ∧
        categoryName ≠ "Uncategorized")) :
    deleteSubcategoryPost categories items categoryId categoryName subcategoryName parent := by
  have hguard : ¬ ((categoryName = "Uncategorized" ∧ subcategoryName = "Default") ∨
      categoryId = "") := by
    rintro (h | h)
    · exact hrej1 h
    · exact hcid h
  unfold deleteSubcategoryPost handleDeleteSubcategory
  rw [if_neg hguard]
  simp only [hfind]
  rw [if_neg hrej2]
  refine ⟨_, rfl, ?_, ?_⟩
  · -- every product of the deleted subcategory is rewritten to "Default"
    intro i hi h₁ h₂
    have hfil : i ∈ items.filter
        (fun i => i.category == categoryName && i.subcategory == subcategoryName) :=
      List.mem_filter.mpr ⟨hi, by simp [h₁, h₂]⟩
    have hin := mem_foldl_subreassign_self
      (items.filter (fun i => i.category == categoryName && i.subcategory == subcategoryName))
      [] i hfil
    apply mem_ite_updates
    · intro hc
      apply Updates.mem_set_of
      · apply Updates.mem_set_of
        · exact hin
        · exact Or.inl (by simp)
      · exact Or.inl (by simp)
    · intro hc
      apply Updates.mem_set_of
      · exact hin
      · exact Or.inl (by simp)
  · -- the written subcategory list is never empty for a non-fallback category
    intro hn
    rw [if_neg (fun hc => hn hc.1)]
    set F := parent.subcategories.filter (fun sub => sub != subcategoryName) with hF
    set R := items.filter
      (fun i => i.category == categoryName && i.subcategory == subcategoryName) with hR
    set U1 := (if R.length > 0 then
        if subcategoryName ≠ "Default" ∧ ¬ F.contains "Default" then
          sortStrings (F ++ ["Default"])
        else if subcategoryName = "Default" ∧ F = [] ∧ categoryName ≠ "Uncategorized" then
          F ++ ["Default"]
        else F
      else F) with hU1
    set U2 := (if categoryName ≠ "Uncategorized" ∧ U1 = [] then U1 ++ ["Default"] else U1)
      with hU2
    have hU2ne : U2 ≠ [] := by
      rw [hU2]
      by_cases he : U1 = []
      · rw [if_pos ⟨hn, he⟩, he]
        simp
      · rw [if_neg (fun hc => he hc.2)]
        exact he
    refine ⟨U2, ?_, hU2ne, ?_⟩
    · rw [if_pos (List.length_pos.mpr hU2ne)]
      exact Updates.get?_set_self _ _ _
    · -- sole-subcategory case: the written list is exactly ["Default"]
      intro hsole
      have hF0 : F = [] := by
        rw [hF, hsole]
        simp
      have hsd : subcategoryName ≠ "Default" :=
        fun h => hrej2 ⟨h, by rw [hsole]; rfl, hn⟩
      have hU1v : U1 = ["Default"] ∨ U1 = [] := by
        rw [hU1, hF0]
        by_cases hlen : R.length > 0
        · rw [if_pos hlen, if_pos ⟨hsd, by simp⟩]
          left; rfl
        · rw [if_neg hlen]
          right; rfl
      rcases hU1v with h | h
      · rw [hU2, if_neg (fun hc => by rw [h] at hc; exact List.cons_ne_nil _ _ hc.2), h]
      · rw [hU2, if_pos ⟨hn, h⟩, h]
        rfl

/-- Witness for C3 at a concrete state: category `Shoes` whose only
subcategory `Sneaks` holds one product. -/
theorem c3_delete_subcategory_witness :
    deleteSubcategoryPost [⟨"c1", "Shoes", ["Sneaks"]⟩]
      [⟨"p1", "Runner", "SH-1", "Shoes", "Sneaks", fun _ => 2, 50, none, none⟩]
      "c1" "Shoes" "Sneaks" ⟨"c1", "Shoes", ["Sneaks"]⟩ :=
  c3_delete_subcategory _ _ _ _ _ _ (by decide) (by decide) rfl rfl (by decide) (by decide)

/-! ## Claim C1: saving a product with an unknown category -/

/-- Postcondition of the save reconciliation for claim C1: the product is
written to the fallback bucket, the batch creates or patches the
`Uncategorized` category as needed, and after applying the batch the
category set contains an `Uncategorized` entry whose subcategories include
`Default`. -/
def savePost (categories : List CategoryDefinition) (item : InventoryItem)
    (newUncatKey newItemKey : String) (prods : List InventoryItem) : Prop :=
  (∃ p : ProductData,
    (handleSaveItem categories item newUncatKey newItemKey).get?
      (.product (if item.id = "" then newItemKey else item.id)) = some (.prod p) ∧
    p.category = "Uncategorized" ∧ p.subcategory = "Default") ∧
  (match categories.find? (fun c => c.name == "Uncategorized") with
   | none =>
     (RtdbPath.category newUncatKey, RtdbValue.cat "Uncategorized" ["Default"]) ∈
       handleSaveItem categories item newUncatKey newItemKey
   | some u0 =>
     u0.subcategories.contains "Default" = false →
       ∃ L, (RtdbPath.categorySubcats u0.id, RtdbValue.subcats L) ∈
         handleSaveItem categories item newUncatKey newItemKey ∧ "Default" ∈ L) ∧
  (∃ c ∈ (applyUpdates ⟨categories, prods⟩
      (handleSaveItem categories item newUncatKey newItemKey)).categories,
    c.name = "Uncategorized" ∧ "Default" ∈ c.subcategories)

/-- C1. Saving a product whose stated category is not in the current
category list writes it with category `Uncategorized` and subcategory
`Default`; the same batch creates the `Uncategorized` category (when absent)
or adds `Default` to it (when it lacks it); after the batch the category set
contains an `Uncategorized` entry whose subcategories include `Default`. -/
theorem c1_save_redirects_unknown_category (categories : List CategoryDefinition)
    (item : InventoryItem) (newUncatKey newItemKey : String) (prods : List InventoryItem)
    (hcat : categories.find? (fun c => c.name == item.category) = none) :
    savePost categories item newUncatKey newItemKey prods := by
  unfold savePost handleSaveItem
  rcases hu : categories.find? (fun c => c.name == "Uncategorized") with _ | u0
  · simp only [hcat, hu]
    refine ⟨⟨_, Updates.get?_set_self _ _ _, rfl, rfl⟩, ?_, ?_⟩
    · apply Updates.mem_set_of
      · simp [Updates.set]
      · exact Or.inl (by simp)
    · refine ⟨⟨newUncatKey, "Uncategorized", ["Default"]⟩, ?_, rfl, by simp⟩
      exact mem_setCategoryEntry categories newUncatKey "Uncategorized" ["Default"]
  · have hname : u0.name = "Uncategorized" := by
      have h := List.find?_some hu
      simpa using h
    have humem : u0 ∈ categories := List.mem_of_find?_eq_some hu
    by_cases hdef : u0.subcategories.contains "Default"
    · have hdmem : "Default" ∈ u0.subcategories := by simpa using hdef
      simp only [hcat, hu, hdef, if_true]
      refine ⟨⟨_, Updates.get?_set_self _ _ _, rfl, rfl⟩,
        fun hfalse => absurd hfalse (by simp), ?_⟩
      exact ⟨u0, humem, hname, hdmem⟩
    · rw [Bool.not_eq_true] at hdef
      simp only [hcat, hu, hdef, Bool.false_eq_true, if_false]
      refine ⟨⟨_, Updates.get?_set_self _ _ _, rfl, rfl⟩, fun _ => ?_, ?_⟩
      · refine ⟨setSort (u0.subcategories ++ ["Default"]), ?_,
          mem_setSort.mpr (List.mem_append_right _ (List.mem_singleton.mpr rfl))⟩
        apply Updates.mem_set_of
        · simp [Updates.set]
        · exact Or.inl (by simp)
      · refine ⟨{ u0 with subcategories := setSort (u0.subcategories ++ ["Default"]) },
          ?_, hname, mem_setSort.mpr (List.mem_append_right _ (List.mem_singleton.mpr rfl))⟩
        exact List.mem_map.mpr ⟨u0, humem, by simp⟩

/-- Witness for C1: a product whose category `Ghost` does not exist, with an
empty category list. -/
theorem c1_save_redirects_unknown_category_witness :
    savePost [] ⟨"p1", "Runner", "SH-1", "Ghost", "Default", fun _ => 2, 50, none, none⟩
      "k1" "k2" [] :=
  c1_save_redirects_unknown_category _ _ _ _ _ rfl

/-! ## Claims C5 and C10: what a save writes besides reconciliation -/

/-- Shape of every batch built by `handleSaveItem`: exactly one product
write (at the saved product's own path, carrying the input fields except for
the validated category/subcategory and the normalized image URL), preceded
by at most one category write. -/
theorem save_batch_shape (categories : List CategoryDefinition) (item : InventoryItem)
    (newUncatKey newItemKey : String) :
    ∃ (u0 : Updates) (p : ProductData),
      handleSaveItem categories item newUncatKey newItemKey =
        Updates.set u0 (.product (if item.id = "" then newItemKey else item.id)) (.prod p) ∧
      (u0 = [] ∨ (∃ cid v, u0 = [(RtdbPath.category cid, v)]) ∨
        (∃ cid v, u0 = [(RtdbPath.categorySubcats cid, v)])) ∧
      p.name = item.name ∧ p.sku = item.sku ∧ p.sizes = item.sizes ∧
      p.price = item.price ∧ p.description = item.description ∧
      p.imageUrl = (item.imageUrl.getD "").trim := by
  unfold handleSaveItem
  rcases hcat : categories.find? (fun c => c.name == item.category) with _ | cd
  · rcases hu : categories.find? (fun c => c.name == "Uncategorized") with _ | u0
    · simp only [hcat, hu]
      exact ⟨_, _, rfl, Or.inr (Or.inl ⟨newUncatKey, _, rfl⟩), rfl, rfl, rfl, rfl, rfl, rfl⟩
    · by_cases hdef : u0.subcategories.contains "Default"
      · simp only [hcat, hu, hdef, if_true]
        exact ⟨_, _, rfl, Or.inl rfl, rfl, rfl, rfl, rfl, rfl, rfl⟩
      · rw [Bool.not_eq_true] at hdef
        simp only [hcat, hu, hdef, Bool.false_eq_true, if_false]
        exact ⟨_, _, rfl, Or.inr (Or.inr ⟨u0.id, _, rfl⟩), rfl, rfl, rfl, rfl, rfl, rfl⟩
  · by_cases hsub : cd.subcategories.contains item.subcategory
    · simp only [hcat, hsub, if_true]
      exact ⟨_, _, rfl, Or.inl rfl, rfl, rfl, rfl, rfl, rfl, rfl⟩
    · rw [Bool.not_eq_true] at hsub
      simp only [hcat, hsub, Bool.false_eq_true, if_false]
      by_cases hdef : cd.subcategories.contains "Default"
      · simp only [hdef, if_true]
        exact ⟨_, _, rfl, Or.inl rfl, rfl, rfl, rfl, rfl, rfl, rfl⟩
      · rw [Bool.not_eq_true] at hdef
        simp only [hdef, Bool.false_eq_true, if_false]
        exact ⟨_, _, rfl, Or.inr (Or.inr ⟨cd.id, _, rfl⟩), rfl, rfl, rfl, rfl, rfl, rfl⟩

/-- C10. The product record written by a save has `name`, `sku`, `sizes`,
`price` and `description` equal to the input's, and `imageUrl` normalized to
the trimmed string (empty when absent); every other write in the batch is a
category write (`/categories/...` path): reconciliation may rewrite only the
`category`/`subcategory` fields. -/
theorem c10_save_preserves_product_fields (categories : List CategoryDefinition)
    (item : InventoryItem) (newUncatKey newItemKey : String) :
    ∃ p : ProductData,
      (handleSaveItem categories item newUncatKey newItemKey).get?
        (.product (if item.id = "" then newItemKey else item.id)) = some (.prod p) ∧
      p.name = item.name ∧ p.sku = item.sku ∧ p.sizes = item.sizes ∧
      p.price = item.price ∧ p.description = item.description ∧
      p.imageUrl = (item.imageUrl.getD "").trim ∧
      ∀ kv ∈ handleSaveItem categories item newUncatKey newItemKey,
        kv = (.product (if item.id = "" then newItemKey else item.id), .prod p) ∨
        (∃ cid, kv.1 = RtdbPath.category cid) ∨
        (∃ cid, kv.1 = RtdbPath.categorySubcats cid) := by
  obtain ⟨u0, p, hB, hu0, hname, hsku, hsizes, hprice, hdesc, himg⟩ :=
    save_batch_shape categories item newUncatKey newItemKey
  refine ⟨p, ?_, hname, hsku, hsizes, hprice, hdesc, himg, ?_⟩
  · rw [hB]
    exact Updates.get?_set_self _ _ _
  · intro kv hkv
    rw [hB] at hkv
    rcases hu0 with rfl | ⟨cid, v, rfl⟩ | ⟨cid, v, rfl⟩
    · simp only [Updates.set] at hkv
      rcases List.mem_singleton.mp hkv with rfl
      exact Or.inl rfl
    · rw [show Updates.set [(RtdbPath.category cid, v)]
          (.product (if item.id = "" then newItemKey else item.id)) (.prod p) =
          [(RtdbPath.category cid, v),
           (.product (if item.id = "" then newItemKey else item.id), .prod p)] from by
        simp [Updates.set]] at hkv
      rcases List.mem_cons.mp hkv with rfl | h₂
      · exact Or.inr (Or.inl ⟨cid, rfl⟩)
      · rcases List.mem_singleton.mp h₂ with rfl
        exact Or.inl rfl
    · rw [show Updates.set [(RtdbPath.categorySubcats cid, v)]
          (.product (if item.id = "" then newItemKey else item.id)) (.prod p) =
          [(RtdbPath.categorySubcats cid, v),
           (.product (if item.id = "" then newItemKey else item.id), .prod p)] from by
        simp [Updates.set]] at hkv
      rcases List.mem_cons.mp hkv with rfl | h₂
      · exact Or.inr (Or.inr ⟨cid, rfl⟩)
      · rcases List.mem_singleton.mp h₂ with rfl
        exact Or.inl rfl

/-- Witness for C10 at concrete inputs. -/
theorem c10_save_preserves_product_fields_witness :
    ∃ p : ProductData,
      (handleSaveItem [⟨"c1", "Shoes", ["Default"]⟩]
        ⟨"p1", "Runner", "SH-1", "Shoes", "Default", fun _ => 2, 50, none, none⟩
        "k1" "k2").get? (.product (if ("p1" : String) = "" then "k2" else "p1")) =
          some (.prod p) ∧
      p.name = "Runner" ∧ p.sku = "SH-1" ∧ p.sizes = (fun _ => 2) ∧
      p.price = 50 ∧ p.description = none ∧
      p.imageUrl = ((none : Option String).getD "").trim ∧
      ∀ kv ∈ handleSaveItem [⟨"c1", "Shoes", ["Default"]⟩]
          ⟨"p1", "Runner", "SH-1", "Shoes", "Default", fun _ => 2, 50, none, none⟩
          "k1" "k2",
        kv = (.product (if ("p1" : String) = "" then "k2" else "p1"), .prod p) ∨
        (∃ cid, kv.1 = RtdbPath.category cid) ∨
        (∃ cid, kv.1 = RtdbPath.categorySubcats cid) :=
  c10_save_preserves_product_fields [⟨"c1", "Shoes", ["Default"]⟩]
    ⟨"p1", "Runner", "SH-1", "Shoes", "Default", fun _ => 2, 50, none, none⟩ "k1" "k2"

/-- Counterexample to C5 as stated: saving an already-valid product is not
"no writes scheduled" — the issued batch is nonempty (it carries the
product's own write). -/
theorem c5_counterexample_batch_nonempty :
    handleSaveItem [⟨"c1", "Shoes", ["Default"]⟩]
      ⟨"p1", "Runner", "SH-1", "Shoes", "Default", fun _ => 2, 50, none, none⟩
      "k1" "k2" ≠ [] := by
  obtain ⟨u0, p, hB, _, _, _, _, _, _, _⟩ := save_batch_shape
    [⟨"c1", "Shoes", ["Default"]⟩]
    ⟨"p1", "Runner", "SH-1", "Shoes", "Default", fun _ => 2, 50, none, none⟩ "k1" "k2"
  rw [hB]
  exact Updates.set_ne_nil _ _ _

/-- The amended C5 postcondition: on an already-valid product the save
schedules no category writes; the batch is exactly the one write of the
product's own path, with category and subcategory passed through unchanged
(a second reconciliation pass adds nothing beyond the product write itself). -/
def saveValidPost (categories : List CategoryDefinition) (item : InventoryItem)
    (newUncatKey newItemKey : String) : Prop :=
  ∃ p : ProductData,
    handleSaveItem categories item newUncatKey newItemKey =
      [(.product (if item.id = "" then newItemKey else item.id), .prod p)] ∧
    p.category = item.category ∧ p.subcategory = item.subcategory

/-- C5 (amended). For a product whose category exists by name and contains
its subcategory, reconciliation schedules no category writes: the batch is
exactly the product's own write, with its category and subcategory
unchanged. -/
theorem c5_valid_save_schedules_no_category_writes (categories : List CategoryDefinition)
    (item : InventoryItem) (newUncatKey newItemKey : String) (cd : CategoryDefinition)
    (hfind : categories.find? (fun c => c.name == item.category) = some cd)
    (hsub : cd.subcategories.contains item.subcategory = true) :
    saveValidPost categories item newUncatKey newItemKey := by
  unfold saveValidPost handleSaveItem
  simp only [hfind, hsub, if_true]
  exact ⟨_, rfl, rfl, rfl⟩

/-- Witness for the amended C5. -/
theorem c5_valid_save_schedules_no_category_writes_witness :
    saveValidPost [⟨"c1", "Shoes", ["Default"]⟩]
      ⟨"p1", "Runner", "SH-1", "Shoes", "Default", fun _ => 2, 50, none, none⟩
      "k1" "k2" :=
  c5_valid_save_schedules_no_category_writes _ _ _ _ ⟨"c1", "Shoes", ["Default"]⟩ rfl rfl

/-! ## Claim C9: CSV export -/

/-- Stated from the claim's wording, for the refinement check: a field is
wrapped in double quotes (inner double quotes doubled) exactly when it
contains a comma, a double quote, or a newline character (LF or CR — the
two line-break characters). -/
def csvEscapeSpec (t : String) : String :=
  if t.data.any (fun c => decide (c = ',' ∨ c = '"' ∨ c = '\n' ∨ c = '\r')) then
    "\"" ++ escapeQuotes t ++ "\""
  else t

/-- Stated from the claim's wording: byte-order-mark prefix, rows joined by
CRLF, fields comma-joined and escaped per `csvEscapeSpec`; the header row is
`Name`, `Image URL`, then the seven sizes in order; each data row is the
product's name, its image URL (empty string when absent), then its quantity
per size. -/
def csvContentSpec (items : List InventoryItem) : String :=
  let headerRow : List String :=
    ["Name", "Image URL", "XS", "S", "M", "L", "XL", "XXL", "3XL"]
  let dataRow : InventoryItem → List String := fun item =>
    [item.name, item.imageUrl.getD "",
      toString (item.sizes .xs), toString (item.sizes .s), toString (item.sizes .m),
      toString (item.sizes .l), toString (item.sizes .xl), toString (item.sizes .xxl),
      toString (item.sizes .x3l)]
  "\uFEFF" ++ String.intercalate "\r\n"
    ((headerRow :: items.map dataRow).map
      (fun row => String.intercalate "," (row.map csvEscapeSpec)))

theorem formatCsvValue_eq_spec (v : CsvValue) :
    formatCsvValue v = csvEscapeSpec v.toText := by
  show (if needsQuoting v.toText then "\"" ++ escapeQuotes v.toText ++ "\""
    else v.toText) = csvEscapeSpec v.toText
  unfold csvEscapeSpec needsQuoting
  have hcond : (v.toText.data.any
        (fun c => c == '"' || c == ',' || c == '\r' || c == '\n')) =
      (v.toText.data.any
        (fun c => decide (c = ',' ∨ c = '"' ∨ c = '\n' ∨ c = '\r'))) := by
    have hp : ∀ c : Char, (c == '"' || c == ',' || c == '\r' || c == '\n') =
        decide (c = ',' ∨ c = '"' ∨ c = '\n' ∨ c = '\r') := by
      intro c
      apply Bool.eq_iff_iff.mpr
      simp only [Bool.or_eq_true, beq_iff_eq, decide_eq_true_eq]
      tauto
    exact congrArg _ (funext hp)
  rw [hcond]

set_option maxHeartbeats 1000000 in
/-- C9. The exported content equals the claim's description (BOM prefix,
CRLF-joined rows, comma-joined fields quoted exactly when they contain a
comma, quote or newline, the fixed header, image URL empty when absent,
missing sizes rendered as 0), and on the concrete product
`{name := Runner, sizes := {M := 1}}` it is exactly the claimed file; inner
double quotes are doubled when quoting. -/
theorem c9_csv_export :
    (∀ items : List InventoryItem, handleExportSubcategory items = csvContentSpec items) ∧
    handleExportSubcategory
      [⟨"p1", "Runner", "SH-1", "Shoes", "Default",
        (fun sz => if sz = .m then 1 else 0), 50, none, none⟩] =
      "\uFEFFName,Image URL,XS,S,M,L,XL,XXL,3XL\r\nRunner,,0,0,1,0,0,0,0" ∧
    formatCsvValue (.str "a\"b") = "\"a\"\"b\"" := by
  refine ⟨?_, by decide, by decide⟩
  intro items
  unfold handleExportSubcategory csvFileContent buildCsvContent exportRows csvContentSpec
  congr 1
  congr 1
  rw [List.map_cons, List.map_cons, List.cons_eq_cons]
  refine ⟨by decide, ?_⟩
  rw [List.map_map, List.map_map]
  apply List.map_congr_left
  intro item _
  simp only [Function.comp_apply]
  congr 1
  simp only [SIZES, List.map_cons, List.map_nil, List.map_append,
    List.cons_append, List.nil_append, formatCsvValue_eq_spec, CsvValue.toText]

/-! ## Navigation lemmas -/

/-- A view tuple as the app itself stores it into history entries never
pairs `admin` mode with a selection that the popstate handler would keep:
the handler clears the selections whenever the entry's mode is `admin`.
(Reachable app states can violate this: toggling from stock mode to admin
keeps the current selection in the tuple.) -/
def ViewState.canonical (v : ViewState) : Prop :=
  v.viewMode = ViewMode.admin → v.selectedCategory = none ∧ v.selectedSubcategory = none

theorem restrictView_of_canonical {v : ViewState} (hc : v.canonical) :
    restrictView v = v := by
  rcases v with ⟨vm, sc, ss⟩
  cases vm
  · obtain ⟨h₁, h₂⟩ := hc rfl
    subst h₁
    subst h₂
    rfl
  · rfl

/-- `applyPopped` on a tagged entry, unfolded. -/
theorem applyPopped_tagged (s : AppNav) (vs : ViewState) (i : Nat) :
    applyPopped s (.tagged vs i) =
      (if restrictView vs = s.view
        then { s with historyIndex := i, isHandlingPopState := true }
        else syncEffect
          { s with view := restrictView vs, historyIndex := i, isHandlingPopState := true })
      := rfl

/-- The sync effect in its popstate configuration: replace, not push. -/
theorem syncEffect_replace (s : AppNav) (hini : s.isInitialHistory = false)
    (hpop : s.isHandlingPopState = true) :
    syncEffect s =
      { s with isHandlingPopState := false,
               history := replaceEntry s.history (.tagged s.view s.historyIndex) } := by
  unfold syncEffect
  rw [if_neg (by simp [hini]), if_pos hpop]

/-- The sync effect in its user-driven configuration: increment and push. -/
theorem syncEffect_push (s : AppNav) (hini : s.isInitialHistory = false)
    (hpop : s.isHandlingPopState = false) :
    syncEffect s =
      { s with historyIndex := s.historyIndex + 1,
               history := pushEntry s.history (.tagged s.view (s.historyIndex + 1)) } := by
  unfold syncEffect
  rw [if_neg (by simp [hini]), if_neg (by simp [hpop])]

/-! ## Claim C8: popstate handling -/

/-- C8 (counterexample to the claim as stated): after the user flow
select-category `A` (stock) → toggle to admin (the selection stays in the
tuple) → toggle back to stock, a native back pops the tagged entry
`(admin, A, none)` — but the handler does not adopt its selection fields:
the restored view is `(admin, none, none)`. -/
theorem c8_counterexample_admin_entry_fields_not_adopted :
    (navigate (navigate (navigate mountApp ⟨.stock, some "A", none⟩)
        ⟨.admin, some "A", none⟩) initialView).history.stack.get?
      ((navigate (navigate (navigate mountApp ⟨.stock, some "A", none⟩)
        ⟨.admin, some "A", none⟩) initialView).history.pos - 1) =
      some (.tagged ⟨.admin, some "A", none⟩ 3) ∧
    (goBack (navigate (navigate (navigate mountApp ⟨.stock, some "A", none⟩)
        ⟨.admin, some "A", none⟩) initialView)).view ≠ ⟨.admin, some "A", none⟩ := by
  decide

/-- Postcondition of one native back/forward navigation for the amended C8:
a tagged popped entry has its `viewMode` and `historyIndex` adopted, its
selection fields adopted exactly when its mode is `stock` (cleared to `null`
otherwise, per `restrictView`), and the subsequent transition replaces
rather than pushes (the stack keeps its length, the position only moves to
the popped entry); an untagged popped entry changes neither the view state
nor the history index nor the stack. -/
def popstatePost (s : AppNav) : Prop :=
  (∀ vs i, 0 < s.history.pos →
    s.history.stack.get? (s.history.pos - 1) = some (.tagged vs i) →
    (goBack s).view = restrictView vs ∧ (goBack s).historyIndex = i ∧
    (goBack s).history.pos = s.history.pos - 1 ∧
    (goBack s).history.stack.length = s.history.stack.length) ∧
  (0 < s.history.pos →
    s.history.stack.get? (s.history.pos - 1) = some .untagged →
    (goBack s).view = s.view ∧ (goBack s).historyIndex = s.historyIndex ∧
    (goBack s).history.stack = s.history.stack) ∧
  (∀ vs i, s.history.pos + 1 < s.history.stack.length →
    s.history.stack.get? (s.history.pos + 1) = some (.tagged vs i) →
    (goForward s).view = restrictView vs ∧ (goForward s).historyIndex = i ∧
    (goForward s).history.pos = s.history.pos + 1 ∧
    (goForward s).history.stack.length = s.history.stack.length) ∧
  (s.history.pos + 1 < s.history.stack.length →
    s.history.stack.get? (s.history.pos + 1) = some .untagged →
    (goForward s).view = s.view ∧ (goForward s).historyIndex = s.historyIndex ∧
    (goForward s).history.stack = s.history.stack)

/-- C8 (amended). On a back/forward event popping a tagged entry, the
`viewMode` and `historyIndex` are adopted; the selection fields are adopted
when the entry's mode is `stock` and cleared otherwise; the following
transition replaces rather than pushes the history entry.  An untagged entry
leaves view state and history index unchanged. -/
theorem c8_popstate_behavior (s : AppNav) (hini : s.isInitialHistory = false) :
    popstatePost s := by
  have hback : ∀ (vs : ViewState) (i : Nat), 0 < s.history.pos →
      s.history.stack.get? (s.history.pos - 1) = some (.tagged vs i) →
      (goBack s).view = restrictView vs ∧ (goBack s).historyIndex = i ∧
      (goBack s).history.pos = s.history.pos - 1 ∧
      (goBack s).history.stack.length = s.history.stack.length := by
    intro vs i hpos hget
    unfold goBack
    rw [if_neg (Nat.pos_iff_ne_zero.mp hpos)]
    simp only [hget]
    rw [applyPopped_tagged]
    by_cases hv : restrictView vs =
        ({ s with history := { s.history with pos := s.history.pos - 1 } } : AppNav).view
    · rw [if_pos hv]
      exact ⟨hv.symm, rfl, rfl, rfl⟩
    · rw [if_neg hv]
      rw [syncEffect_replace _ (by exact hini) (by exact rfl)]
      exact ⟨rfl, rfl, rfl, List.length_set _ _ _⟩
  have hforward : ∀ (vs : ViewState) (i : Nat),
      s.history.pos + 1 < s.history.stack.length →
      s.history.stack.get? (s.history.pos + 1) = some (.tagged vs i) →
      (goForward s).view = restrictView vs ∧ (goForward s).historyIndex = i ∧
      (goForward s).history.pos = s.history.pos + 1 ∧
      (goForward s).history.stack.length = s.history.stack.length := by
    intro vs i hpos hget
    unfold goForward
    rw [if_pos hpos]
    simp only [hget]
    rw [applyPopped_tagged]
    by_cases hv : restrictView vs =
        ({ s with history := { s.history with pos := s.history.pos + 1 } } : AppNav).view
    · rw [if_pos hv]
      exact ⟨hv.symm, rfl, rfl, rfl⟩
    · rw [if_neg hv]
      rw [syncEffect_replace _ (by exact hini) (by exact rfl)]
      exact ⟨rfl, rfl, rfl, List.length_set _ _ _⟩
  refine ⟨hback, ?_, hforward, ?_⟩
  · intro hpos hget
    unfold goBack
    rw [if_neg (Nat.pos_iff_ne_zero.mp hpos)]
    simp only [hget]
    exact ⟨rfl, rfl, rfl⟩
  · intro hpos hget
    unfold goForward
    rw [if_pos hpos]
    simp only [hget]
    exact ⟨rfl, rfl, rfl⟩

/-- Witness for the amended C8 at a concrete state (one tagged entry on each
side of the position, so all four cases of the postcondition are
exercised vacuously or concretely). -/
theorem c8_popstate_behavior_witness :
    popstatePost ⟨⟨.stock, some "A", none⟩, 1, false, false, true,
      ⟨[.tagged initialView 0, .tagged ⟨.stock, some "A", none⟩ 1,
        .tagged ⟨.stock, some "A", some "B"⟩ 2], 1⟩⟩ :=
  c8_popstate_behavior _ rfl

/-! ## Claim C7: three navigations, two backs, one forward -/

/-- C7 (counterexample to the claim as stated): the user-driven sequence
select category `A` (stock) → toggle to admin (the selection stays in the
tuple) → toggle back to stock consists of three navigations, each pushing a
tagged entry with an incremented index (final index 4).  Two native backs do
restore the state after nav1 — but the subsequent forward does not restore
the state after nav2: the handler clears the selections of the admin-mode
entry. -/
theorem c7_counterexample_forward_after_admin_nav :
    (navigate (navigate (navigate mountApp ⟨.stock, some "A", none⟩)
      ⟨.admin, some "A", none⟩) initialView).historyIndex = 4 ∧
    (goBack (goBack (navigate (navigate (navigate mountApp ⟨.stock, some "A", none⟩)
      ⟨.admin, some "A", none⟩) initialView))).view = ⟨.stock, some "A", none⟩ ∧
    (goForward (goBack (goBack (navigate (navigate (navigate mountApp
      ⟨.stock, some "A", none⟩) ⟨.admin, some "A", none⟩) initialView)))).view ≠
      ⟨.admin, some "A", none⟩ := by
  decide

/-- C7 (amended).  For three user-driven navigations `v₁ → v₂ → v₃` from a
fresh mount (each changing the view tuple, so each pushes a tagged entry
with an incremented index), where the states restored by back/forward
(`v₁`, `v₂`) carry no admin-mode selections: after two native backs the view
state equals the state after nav1 (not the initial landing state, since
`v₁ ≠ initialView`), and a subsequent native forward restores the state
after nav2. -/
theorem c7_history_back_forward (v₁ v₂ v₃ : ViewState)
    (h₁ : v₁ ≠ initialView) (h₂ : v₂ ≠ v₁) (h₃ : v₃ ≠ v₂)
    (hc₁ : v₁.canonical) (hc₂ : v₂.canonical) :
    (goBack (goBack (navigate (navigate (navigate mountApp v₁) v₂) v₃))).view = v₁ ∧
    (goForward (goBack (goBack (navigate (navigate (navigate mountApp v₁) v₂)
      v₃)))).view = v₂ := by
  have e₁ : navigate mountApp v₁ =
      ⟨v₁, 2, false, false, true,
        ⟨[.tagged initialView 0, .tagged initialView 1, .tagged v₁ 2], 2⟩⟩ := by
    unfold navigate
    rw [if_neg (show ¬ v₁ = mountApp.view from h₁)]
    rfl
  have e₂ : navigate
      (⟨v₁, 2, false, false, true,
        ⟨[.tagged initialView 0, .tagged initialView 1, .tagged v₁ 2], 2⟩⟩ : AppNav) v₂ =
      ⟨v₂, 3, false, false, true,
        ⟨[.tagged initialView 0, .tagged initialView 1, .tagged v₁ 2,
          .tagged v₂ 3], 3⟩⟩ := by
    unfold navigate
    rw [if_neg (show ¬ v₂ = v₁ from h₂)]
    rfl
  have e₃ : navigate
      (⟨v₂, 3, false, false, true,
        ⟨[.tagged initialView 0, .tagged initialView 1, .tagged v₁ 2,
          .tagged v₂ 3], 3⟩⟩ : AppNav) v₃ =
      ⟨v₃, 4, false, false, true,
        ⟨[.tagged initialView 0, .tagged initialView 1, .tagged v₁ 2,
          .tagged v₂ 3, .tagged v₃ 4], 4⟩⟩ := by
    unfold navigate
    rw [if_neg (show ¬ v₃ = v₂ from h₃)]
    rfl
  have e₄ : goBack
      (⟨v₃, 4, false, false, true,
        ⟨[.tagged initialView 0, .tagged initialView 1, .tagged v₁ 2,
          .tagged v₂ 3, .tagged v₃ 4], 4⟩⟩ : AppNav) =
      ⟨v₂, 3, false, false, true,
        ⟨[.tagged initialView 0, .tagged initialView 1, .tagged v₁ 2,
          .tagged v₂ 3, .tagged v₃ 4], 3⟩⟩ := by
    have h₀ : goBack
        (⟨v₃, 4, false, false, true,
          ⟨[.tagged initialView 0, .tagged initialView 1, .tagged v₁ 2,
            .tagged v₂ 3, .tagged v₃ 4], 4⟩⟩ : AppNav) =
        applyPopped
          (⟨v₃, 4, false, false, true,
            ⟨[.tagged initialView 0, .tagged initialView 1, .tagged v₁ 2,
              .tagged v₂ 3, .tagged v₃ 4], 3⟩⟩ : AppNav) (.tagged v₂ 3) := rfl
    rw [h₀, applyPopped_tagged, restrictView_of_canonical hc₂,
      if_neg (show ¬ v₂ = v₃ from fun h => h₃ h.symm)]
    rfl
  have e₅ : goBack
      (⟨v₂, 3, false, false, true,
        ⟨[.tagged initialView 0, .tagged initialView 1, .tagged v₁ 2,
          .tagged v₂ 3, .tagged v₃ 4], 3⟩⟩ : AppNav) =
      ⟨v₁, 2, false, false, true,
        ⟨[.tagged initialView 0, .tagged initialView 1, .tagged v₁ 2,
          .tagged v₂ 3, .tagged v₃ 4], 2⟩⟩ := by
    have h₀ : goBack
        (⟨v₂, 3, false, false, true,
          ⟨[.tagged initialView 0, .tagged initialView 1, .tagged v₁ 2,
            .tagged v₂ 3, .tagged v₃ 4], 3⟩⟩ : AppNav) =
        applyPopped
          (⟨v₂, 3, false, false, true,
            ⟨[.tagged initialView 0, .tagged initialView 1, .tagged v₁ 2,
              .tagged v₂ 3, .tagged v₃ 4], 2⟩⟩ : AppNav) (.tagged v₁ 2) := rfl
    rw [h₀, applyPopped_tagged, restrictView_of_canonical hc₁,
      if_neg (show ¬ v₁ = v₂ from fun h => h₂ h.symm)]
    rfl
  have e₆ : goForward
      (⟨v₁, 2, false, false, true,
        ⟨[.tagged initialView 0, .tagged initialView 1, .tagged v₁ 2,
          .tagged v₂ 3, .tagged v₃ 4], 2⟩⟩ : AppNav) =
      ⟨v₂, 3, false, false, true,
        ⟨[.tagged initialView 0, .tagged initialView 1, .tagged v₁ 2,
          .tagged v₂ 3, .tagged v₃ 4], 3⟩⟩ := by
    have h₀ : goForward
        (⟨v₁, 2, false, false, true,
          ⟨[.tagged initialView 0, .tagged initialView 1, .tagged v₁ 2,
            .tagged v₂ 3, .tagged v₃ 4], 2⟩⟩ : AppNav) =
        applyPopped
          (⟨v₁, 2, false, false, true,
            ⟨[.tagged initialView 0, .tagged initialView 1, .tagged v₁ 2,
              .tagged v₂ 3, .tagged v₃ 4], 3⟩⟩ : AppNav) (.tagged v₂ 3) := rfl
    rw [h₀, applyPopped_tagged, restrictView_of_canonical hc₂,
      if_neg (show ¬ v₂ = v₁ from h₂)]
    rfl
  rw [e₁, e₂, e₃, e₄, e₅, e₆]
  exact ⟨rfl, rfl⟩

/-- Witness for the amended C7: drill-down into category `A`, then
subcategory `B`, then collapse back to the landing view. -/
theorem c7_history_back_forward_witness :
    (goBack (goBack (navigate (navigate (navigate mountApp ⟨.stock, some "A", none⟩)
      ⟨.stock, some "A", some "B"⟩) ⟨.stock, none, none⟩))).view =
      ⟨.stock, some "A", none⟩ ∧
    (goForward (goBack (goBack (navigate (navigate (navigate mountApp
      ⟨.stock, some "A", none⟩) ⟨.stock, some "A", some "B"⟩)
      ⟨.stock, none, none⟩)))).view = ⟨.stock, some "A", some "B"⟩ :=
  c7_history_back_forward ⟨.stock, some "A", none⟩ ⟨.stock, some "A", some "B"⟩
    ⟨.stock, none, none⟩ (by decide) (by decide) (by decide)
    (fun h => by cases h) (fun h => by cases h)

end Armada
